import Mathlib

/-!
Shallow embedding of `display-observer-rs`: the snapshot-diff engine and
callback-dispatch core of `src/lib.rs`, `src/macos.rs` and `src/windows.rs`.

Machine integers (`u32`) are modelled as `Nat`, `i32` as `Int`; the code
performs no arithmetic on them (only equality tests), so no overflow
wrapping occurs along any modelled path.  `HashMap<K, V>` is modelled as an
association list with unique keys; `HashMap::insert`, `remove`, `get`,
`contains_key` and iteration become the list operations below.  Fallible
platform calls are modelled as `Except` values passed in as inputs (the
Snapshot Provider result), and OS attribute queries as an oracle function.
The `f64` field `scale_factor` is only ever stored and carried, never
compared or computed with, so it is modelled as `ℚ`.
-/

/-- Model of `crate::Size` (`lib.rs`): width and height, `u32` fields. -/
structure Size where
  width : Nat
  height : Nat
deriving DecidableEq, Repr

/-- Model of `crate::Origin` (`lib.rs`): x and y, `u32` fields. -/
structure Origin where
  x : Nat
  y : Nat
deriving DecidableEq, Repr

/-- Identity of a registered user callback (the boxed closure is opaque;
we track which closure would be invoked). -/
abbrev CallbackId := Nat

namespace macos

/-- Model of `MacOSDisplayId = CGDirectDisplayID` (a `u32`). -/
abbrev MacOSDisplayId := Nat

/-- Model of `MacOSError = CGError`: an opaque error code. -/
abbrev CGError := Nat

/-- Model of `MacOSDisplay`: wraps the display id (`macos.rs`). -/
structure MacOSDisplay where
  id : MacOSDisplayId
deriving DecidableEq, Repr

/-- Model of `MacOSDisplay::new`. -/
def MacOSDisplay.new (id : MacOSDisplayId) : MacOSDisplay := ⟨id⟩

/-- Model of `crate::Event` (`lib.rs` lines 183-198): only `Removed` carries a
`DisplayId`; `Added`, `Mirrored` and `UnMirrored` have no payload. -/
inductive Event where
  | Added
  | Removed (id : MacOSDisplayId)
  | SizeChanged (before after : Size)
  | OriginChanged (before after : Origin)
  | Mirrored
  | UnMirrored
deriving DecidableEq, Repr

/-- Model of `DisplayState` (`macos.rs`): size and origin of one display. -/
structure DisplayState where
  size : Size
  origin : Origin
deriving DecidableEq, Repr

/-- The tracker's cached state: `HashMap<MacOSDisplayId, DisplayState>`
as an association list with unique keys. -/
abbrev Snapshot := List (MacOSDisplayId × DisplayState)

/-- Model of `HashMap::get` on the cached state. -/
def lookupState (id : MacOSDisplayId) : Snapshot → Option DisplayState
  | [] => none
  | (k, v) :: rest => if k = id then some v else lookupState id rest

/-- Model of `HashMap::insert`: replaces an existing binding, else appends. -/
def insertState (id : MacOSDisplayId) (st : DisplayState) : Snapshot → Snapshot
  | [] => [(id, st)]
  | (k, v) :: rest =>
      if k = id then (k, st) :: rest else (k, v) :: insertState id st rest

/-- Model of `HashMap::remove`. -/
def removeState (id : MacOSDisplayId) : Snapshot → Snapshot
  | [] => []
  | (k, v) :: rest => if k = id then rest else (k, v) :: removeState id rest

/-- Model of `EventTracker` (`macos.rs`): holds the cached display states. -/
structure EventTracker where
  cached_state : Snapshot
deriving DecidableEq, Repr

/-- The per-display body of the loop in `EventTracker::track_changes`
(`macos.rs` lines 202-218): `SizeChanged` if the sizes differ, then
`OriginChanged` if the origins differ, in that order. -/
def attributeEvents (beforeState afterState : DisplayState) : List Event :=
  (if beforeState.size ≠ afterState.size
   then [Event.SizeChanged beforeState.size afterState.size] else []) ++
  (if beforeState.origin ≠ afterState.origin
   then [Event.OriginChanged beforeState.origin afterState.origin] else [])

/-- The loop of `EventTracker::track_changes`: iterate the old cached
state; for ids also present in the new state emit attribute events; ids
present only in the old state produce nothing. -/
def diffLoop (after : Snapshot) : Snapshot → List Event
  | [] => []
  | (id, beforeState) :: rest =>
      (match lookupState id after with
       | some afterState => attributeEvents beforeState afterState
       | none => []) ++ diffLoop after rest

/-- Model of `EventTracker::track_changes` (`macos.rs` lines 198-221): the fresh
snapshot is captured first (`collect_new_cached_state()?`); on provider
failure the function returns the error before touching the cached state.
On success it replaces the cached state and returns the diff events. -/
def track_changes (cached : Snapshot) (fresh : Except CGError Snapshot) :
    Except CGError (Snapshot × List Event) :=
  match fresh with
  | .error e => .error e
  | .ok newState => .ok (newState, diffLoop newState cached)

/-- Model of `EventTracker::add`: query the display's current size and origin and
insert them into the cached state. -/
def addDisplay (query : MacOSDisplayId → DisplayState) (id : MacOSDisplayId)
    (tracker : EventTracker) : EventTracker :=
  ⟨insertState id (query id) tracker.cached_state⟩

/-- Model of `EventTracker::remove`. -/
def removeDisplay (id : MacOSDisplayId) (tracker : EventTracker) : EventTracker :=
  ⟨removeState id tracker.cached_state⟩

/-- Model of `crate::MayBeDisplayAvailable` (`lib.rs`). -/
inductive MayBeDisplayAvailable where
  | Available (display : MacOSDisplay) (event : Event)
  | NotAvailable (event : Event)
deriving DecidableEq, Repr

/-- The event carried by a wrapper. -/
def eventOfWrapped : MayBeDisplayAvailable → Event
  | .Available _ e => e
  | .NotAvailable e => e

/-- The display id recoverable from a dispatched wrapper: the live handle's
id for `Available`, the embedded id for `NotAvailable (Removed id)`. -/
def affectedId : MayBeDisplayAvailable → Option MacOSDisplayId
  | .Available d _ => some d.id
  | .NotAvailable (.Removed i) => some i
  | .NotAvailable _ => none

/-- Model of `CGDisplayChangeSummaryFlags`: the flag bits tested by
`display_callback`, as booleans. -/
structure CGDisplayChangeSummaryFlags where
  beginConfigurationFlag : Bool
  addFlag : Bool
  removeFlag : Bool
  mirrorFlag : Bool
  unMirrorFlag : Bool
  setModeFlag : Bool
  movedFlag : Bool
deriving DecidableEq, Repr

/-- Model of `UserInfo` (`macos.rs`): the state behind the mutex. -/
structure UserInfo where
  callback : Option CallbackId
  tracker : EventTracker
deriving DecidableEq, Repr

/-- Model of `MacOSDisplayObserver::set_callback`. -/
def set_callback (callback : CallbackId) (ui : UserInfo) : UserInfo :=
  { ui with callback := some callback }

/-- Model of `MacOSDisplayObserver::remove_callback`. -/
def remove_callback (ui : UserInfo) : UserInfo :=
  { ui with callback := none }

/-- Model of `display_callback` (`macos.rs` lines 304-364).  Inputs: the OS
attribute oracle `query` (used by `EventTracker::add`), the Snapshot
Provider result `fresh` that `collect_new_cached_state` would return if
called, the notification's display `id` and `flags`, and the locked
state.  Output: the state after the call and the list of
(callback, wrapper) dispatches performed, in order.  Mirrors the source:
`BeginConfiguration` is ignored; everything, including tracker updates,
happens only when a callback is present; the flag branches form an
`else if` chain; track-change errors are swallowed. -/
def display_callback (query : MacOSDisplayId → DisplayState)
    (fresh : Except CGError Snapshot) (id : MacOSDisplayId)
    (flags : CGDisplayChangeSummaryFlags) (ui : UserInfo) :
    UserInfo × List (CallbackId × MayBeDisplayAvailable) :=
  if flags.beginConfigurationFlag then (ui, [])
  else
    match ui.callback with
    | none => (ui, [])
    | some cb =>
        let display_available := fun e =>
          MayBeDisplayAvailable.Available ⟨id⟩ e
        if flags.addFlag then
          ({ ui with tracker := addDisplay query id ui.tracker },
           [(cb, display_available Event.Added)])
        else if flags.removeFlag then
          ({ ui with tracker := removeDisplay id ui.tracker },
           [(cb, MayBeDisplayAvailable.NotAvailable (Event.Removed id))])
        else if flags.mirrorFlag then
          (ui, [(cb, display_available Event.Mirrored)])
        else if flags.unMirrorFlag then
          (ui, [(cb, display_available Event.UnMirrored)])
        else if flags.setModeFlag || flags.movedFlag then
          match track_changes ui.tracker.cached_state fresh with
          | .error _ => (ui, [])
          | .ok (newState, evts) =>
              ({ ui with tracker := ⟨newState⟩ },
               evts.map fun e => (cb, display_available e))
        else (ui, [])

/-- A raw hint that makes `display_callback` capture a fresh snapshot:
none of the specific-change flags is set and a geometry/mode flag is. -/
def requiresRefresh (flags : CGDisplayChangeSummaryFlags) : Prop :=
  flags.beginConfigurationFlag = false ∧ flags.addFlag = false ∧
  flags.removeFlag = false ∧ flags.mirrorFlag = false ∧
  flags.unMirrorFlag = false ∧
  (flags.setModeFlag = true ∨ flags.movedFlag = true)

instance (flags : CGDisplayChangeSummaryFlags) : Decidable (requiresRefresh flags) := by
  unfold requiresRefresh; infer_instance

/-- The constant `MAX_DISPLAYS` in `get_displays` (`macos.rs` line 126). -/
def MAX_DISPLAYS : Nat := 20

/-- Model of `CGGetActiveDisplayList`, following the documented contract of the
Core Graphics call: given the OS's list of active display ids and a
capacity, it yields the filled prefix of the buffer and the display
count, at most the capacity. -/
def CGGetActiveDisplayList (maxDisplays : Nat) (osActive : List MacOSDisplayId) :
    List MacOSDisplayId × Nat :=
  (osActive.take maxDisplays, min osActive.length maxDisplays)

/-- Model of `get_displays` (`macos.rs` lines 125-145): query with capacity
`MAX_DISPLAYS = 20`, then wrap the first `display_count` ids. -/
def get_displays (osActive : List MacOSDisplayId) : List MacOSDisplay :=
  let r := CGGetActiveDisplayList MAX_DISPLAYS osActive
  (r.1.take r.2).map MacOSDisplay.new

/-- Recognisers used in the statements below. -/
def isAdded : Event → Bool
  | .Added => true
  | _ => false

def isRemoved : Event → Bool
  | .Removed _ => true
  | _ => false

def isMirrorEvent : Event → Bool
  | .Mirrored => true
  | .UnMirrored => true
  | _ => false

end macos

namespace windows

/-- Model of `WindowsDisplayId`: the device path (`OsString` as `String`). -/
abbrev WindowsDisplayId := String

/-- Model of `WindowsError`: an opaque error code. -/
abbrev WindowsError := Nat

/-- Model of `dpi::LogicalPosition<i32>` as built in `monitor_enum_proc`. -/
structure LogicalPosition where
  x : Int
  y : Int
deriving DecidableEq, Repr

/-- Model of `dpi::LogicalSize<u32>` as built in `monitor_enum_proc`. -/
structure LogicalSize where
  width : Nat
  height : Nat
deriving DecidableEq, Repr

/-- The `Display` record as constructed in `monitor_enum_proc`
(`windows.rs` lines 239-246).  `scale_factor` is an `f64` that is only
stored, never compared or computed with along the modelled paths, so it
is represented as `ℚ`. -/
structure Display where
  id : WindowsDisplayId
  origin : LogicalPosition
  size : LogicalSize
  scale_factor : Rat
  is_primary : Bool
  is_mirrored : Bool
deriving DecidableEq, Repr

/-- The `Event` variants as used by `EventTracker::track_events`
(`windows.rs` lines 297-341): each variant except `Removed` carries the
current `Display`; `Removed` carries the `DisplayId`. -/
inductive Event where
  | Added (display : Display)
  | Removed (id : WindowsDisplayId)
  | SizeChanged (display : Display) (before after : LogicalSize)
  | OriginChanged (display : Display) (before after : LogicalPosition)
  | Mirrored (display : Display)
  | UnMirrored (display : Display)
deriving DecidableEq, Repr

/-- Model of `HashMap<WindowsDisplayId, Display>` as an association list. -/
abbrev Snapshot := List (WindowsDisplayId × Display)

/-- Model of `HashMap::get`. -/
def lookupDisplay (id : WindowsDisplayId) : Snapshot → Option Display
  | [] => none
  | (k, v) :: rest => if k = id then some v else lookupDisplay id rest

/-- Model of `HashMap::contains_key`. -/
def containsKey (id : WindowsDisplayId) : Snapshot → Bool
  | [] => false
  | (k, _) :: rest => k = id || containsKey id rest

/-- Model of `EventTracker` (`windows.rs`): cached displays keyed by id. -/
structure EventTracker where
  cached_displays : Snapshot
deriving DecidableEq, Repr

/-- The per-display body of the first loop of `track_events`
(`windows.rs` lines 303-328): `SizeChanged` if sizes differ, then
`OriginChanged` if origins differ, then `Mirrored`/`UnMirrored` if the
mirrored flag changed, in that order. -/
def attributeEvents (beforeDisplay afterDisplay : Display) : List Event :=
  (if beforeDisplay.size ≠ afterDisplay.size
   then [Event.SizeChanged afterDisplay beforeDisplay.size afterDisplay.size]
   else []) ++
  (if beforeDisplay.origin ≠ afterDisplay.origin
   then [Event.OriginChanged afterDisplay beforeDisplay.origin afterDisplay.origin]
   else []) ++
  (if beforeDisplay.is_mirrored ≠ afterDisplay.is_mirrored
   then [if afterDisplay.is_mirrored
         then Event.Mirrored afterDisplay
         else Event.UnMirrored afterDisplay]
   else [])

/-- First loop of `track_events`: iterate the old cached state; ids in
both snapshots yield attribute events, ids only in the old snapshot
yield `Removed`. -/
def changedLoop (after : Snapshot) : Snapshot → List Event
  | [] => []
  | (id, beforeDisplay) :: rest =>
      (match lookupDisplay id after with
       | some afterDisplay => attributeEvents beforeDisplay afterDisplay
       | none => [Event.Removed id]) ++ changedLoop after rest

/-- Second loop of `track_events` (`windows.rs` lines 334-338): ids of
the new snapshot that were absent from the old yield `Added`. -/
def addedLoop (before : Snapshot) : Snapshot → List Event
  | [] => []
  | (id, afterDisplay) :: rest =>
      (if containsKey id before then [] else [Event.Added afterDisplay]) ++
      addedLoop before rest

/-- The full event list `track_events` computes from the two snapshots. -/
def diffEvents (before after : Snapshot) : List Event :=
  changedLoop after before ++ addedLoop before after

/-- Model of `EventTracker::track_events` (`windows.rs` lines 297-341): captures
the fresh snapshot first (`collect_new_cached_state()?`); on provider
failure it returns the error before touching the cached state; on
success it replaces the cached state and returns the events. -/
def track_events (cached : Snapshot) (fresh : Except WindowsError Snapshot) :
    Except WindowsError (Snapshot × List Event) :=
  match fresh with
  | .error e => .error e
  | .ok newState => .ok (newState, diffEvents cached newState)

/-- Model of `ObserverContext` (`windows.rs`): the state behind the mutex. -/
structure ObserverContext where
  callback : Option CallbackId
  tracker : EventTracker
deriving DecidableEq, Repr

/-- Model of `WindowsDisplayObserver::set_callback`. -/
def set_callback (callback : CallbackId) (ctx : ObserverContext) : ObserverContext :=
  { ctx with callback := some callback }

/-- Model of `WindowsDisplayObserver::remove_callback`. -/
def remove_callback (ctx : ObserverContext) : ObserverContext :=
  { ctx with callback := none }

/-- The `WM_DISPLAYCHANGE` window message number. -/
def WM_DISPLAYCHANGE : Nat := 126

/-- Model of `process_window_message` (`windows.rs` lines 480-491): only
`WM_DISPLAYCHANGE` triggers `track_events`; `wparam` and `lparam` are
ignored.  Returns the new cached state together with the events, `none`
for other messages. -/
def process_window_message (fresh : Except WindowsError Snapshot)
    (msg : Nat) (_wparam _lparam : Nat) (ctx : ObserverContext) :
    Except WindowsError (Option (Snapshot × List Event)) :=
  if msg = WM_DISPLAYCHANGE then
    (track_events ctx.tracker.cached_displays fresh).map some
  else .ok none

/-- Model of `wnd_proc` (`windows.rs` lines 493-522): processes the message under
the lock; the tracker is updated whenever `process_window_message`
succeeds with events, before the callback slot is examined; events are
dispatched only if a callback is present; errors are swallowed. -/
def wnd_proc (fresh : Except WindowsError Snapshot)
    (msg wparam lparam : Nat) (ctx : ObserverContext) :
    ObserverContext × List (CallbackId × Event) :=
  match process_window_message fresh msg wparam lparam ctx with
  | .ok (some (newState, events)) =>
      let ctx' : ObserverContext := { ctx with tracker := ⟨newState⟩ }
      match ctx'.callback with
      | some cb => (ctx', events.map fun e => (cb, e))
      | none => (ctx', [])
  | _ => (ctx, [])

/-- Recognisers used in the statements below. -/
def isRemovedFor (id : WindowsDisplayId) : Event → Bool
  | .Removed i => i = id
  | _ => false

def isAddedFor (id : WindowsDisplayId) : Event → Bool
  | .Added d => d.id = id
  | _ => false

def isAddedEvent : Event → Bool
  | .Added _ => true
  | _ => false

/-- The display id an event concerns. -/
def eventId : Event → WindowsDisplayId
  | .Added d => d.id
  | .Removed i => i
  | .SizeChanged d _ _ => d.id
  | .OriginChanged d _ _ => d.id
  | .Mirrored d => d.id
  | .UnMirrored d => d.id

/-- A snapshot is well formed when every stored display's `id` field
equals its key — true of every map built by `collect_new_cached_state`,
which inserts each display under its own id. -/
def WellFormed (s : Snapshot) : Prop :=
  ∀ p ∈ s, (Prod.snd p).id = Prod.fst p

instance (s : Snapshot) : Decidable (WellFormed s) := by
  unfold WellFormed; infer_instance

end windows

/-! ### Helper lemmas on the association-list operations -/

theorem macos_lookupState_self {S : macos.Snapshot} (h : (S.map Prod.fst).Nodup)
    {id : macos.MacOSDisplayId} {st : macos.DisplayState} (hmem : (id, st) ∈ S) :
    macos.lookupState id S = some st := by
  induction S with
  | nil => cases hmem
  | cons p rest ih =>
      obtain ⟨k, v⟩ := p
      simp only [List.map_cons, List.nodup_cons] at h
      rcases List.mem_cons.mp hmem with heq | hmem'
      · cases heq; simp [macos.lookupState]
      · have hk : k ≠ id := by
          intro hk; subst hk
          exact h.1 (List.mem_map_of_mem Prod.fst hmem')
        simp [macos.lookupState, hk, ih h.2 hmem']

theorem macos_attributeEvents_self (st : macos.DisplayState) :
    macos.attributeEvents st st = [] := by
  simp [macos.attributeEvents]

theorem macos_diffLoop_nil_of_lookup (S : macos.Snapshot) :
    ∀ before : macos.Snapshot,
      (∀ p ∈ before, macos.lookupState p.1 S = some p.2) →
      macos.diffLoop S before = [] := by
  intro before h
  induction before with
  | nil => simp [macos.diffLoop]
  | cons p rest ih =>
      obtain ⟨id, st⟩ := p
      have h0 := h (id, st) (List.mem_cons_self _ _)
      simp [macos.diffLoop, h0, macos_attributeEvents_self,
        ih fun q hq => h q (List.mem_cons_of_mem _ hq)]

theorem windows_lookupDisplay_self {T : windows.Snapshot}
    (h : (T.map Prod.fst).Nodup) {id : windows.WindowsDisplayId}
    {d : windows.Display} (hmem : (id, d) ∈ T) :
    windows.lookupDisplay id T = some d := by
  induction T with
  | nil => cases hmem
  | cons p rest ih =>
      obtain ⟨k, v⟩ := p
      simp only [List.map_cons, List.nodup_cons] at h
      rcases List.mem_cons.mp hmem with heq | hmem'
      · cases heq; simp [windows.lookupDisplay]
      · have hk : k ≠ id := by
          intro hk; subst hk
          exact h.1 (List.mem_map_of_mem Prod.fst hmem')
        simp [windows.lookupDisplay, hk, ih h.2 hmem']

theorem windows_containsKey_of_mem {T : windows.Snapshot}
    {id : windows.WindowsDisplayId} {d : windows.Display} (hmem : (id, d) ∈ T) :
    windows.containsKey id T = true := by
  induction T with
  | nil => cases hmem
  | cons p rest ih =>
      obtain ⟨k, v⟩ := p
      rcases List.mem_cons.mp hmem with heq | hmem'
      · cases heq; simp [windows.containsKey]
      · simp [windows.containsKey, ih hmem']

theorem windows_attributeEvents_self (d : windows.Display) :
    windows.attributeEvents d d = [] := by
  simp [windows.attributeEvents]

theorem windows_changedLoop_nil_of_lookup (T : windows.Snapshot) :
    ∀ before : windows.Snapshot,
      (∀ p ∈ before, windows.lookupDisplay p.1 T = some p.2) →
      windows.changedLoop T before = [] := by
  intro before h
  induction before with
  | nil => simp [windows.changedLoop]
  | cons p rest ih =>
      obtain ⟨id, d⟩ := p
      have h0 := h (id, d) (List.mem_cons_self _ _)
      simp [windows.changedLoop, h0, windows_attributeEvents_self,
        ih fun q hq => h q (List.mem_cons_of_mem _ hq)]

theorem windows_addedLoop_nil_of_contains (T : windows.Snapshot) :
    ∀ after : windows.Snapshot,
      (∀ p ∈ after, windows.containsKey p.1 T = true) →
      windows.addedLoop T after = [] := by
  intro after h
  induction after with
  | nil => simp [windows.addedLoop]
  | cons p rest ih =>
      obtain ⟨id, d⟩ := p
      have h0 := h (id, d) (List.mem_cons_self _ _)
      simp [windows.addedLoop, h0,
        ih fun q hq => h q (List.mem_cons_of_mem _ hq)]

theorem macos_attributeEvents_shapes (b a : macos.DisplayState) :
    ∀ e ∈ macos.attributeEvents b a,
      (∃ s t, e = macos.Event.SizeChanged s t) ∨
      (∃ s t, e = macos.Event.OriginChanged s t) := by
  intro e he
  unfold macos.attributeEvents at he
  rcases List.mem_append.mp he with h | h
  · revert h; split
    · intro h
      simp only [List.mem_singleton] at h
      exact Or.inl ⟨_, _, h⟩
    · intro h; simp at h
  · revert h; split
    · intro h
      simp only [List.mem_singleton] at h
      exact Or.inr ⟨_, _, h⟩
    · intro h; simp at h

theorem macos_diffLoop_shapes (after : macos.Snapshot) :
    ∀ before : macos.Snapshot, ∀ e ∈ macos.diffLoop after before,
      (∃ s t, e = macos.Event.SizeChanged s t) ∨
      (∃ s t, e = macos.Event.OriginChanged s t) := by
  intro before
  induction before with
  | nil => intro e he; simp [macos.diffLoop] at he
  | cons p rest ih =>
      obtain ⟨id, st⟩ := p
      intro e he
      unfold macos.diffLoop at he
      rcases List.mem_append.mp he with h | h
      · revert h; split
        · intro h; exact macos_attributeEvents_shapes _ _ e h
        · intro h; simp at h
      · exact ih e h

theorem macos_display_callback_batch_cases
    (query : macos.MacOSDisplayId → macos.DisplayState)
    (fresh : Except macos.CGError macos.Snapshot) (id : macos.MacOSDisplayId)
    (flags : macos.CGDisplayChangeSummaryFlags) (ui : macos.UserInfo) :
    (macos.display_callback query fresh id flags ui).2 = [] ∨
    (∃ cb w, ui.callback = some cb ∧
      (macos.display_callback query fresh id flags ui).2 = [(cb, w)] ∧
      (w = .Available ⟨id⟩ .Added ∨ w = .NotAvailable (.Removed id) ∨
       w = .Available ⟨id⟩ .Mirrored ∨ w = .Available ⟨id⟩ .UnMirrored)) ∨
    (∃ cb newState, ui.callback = some cb ∧ fresh = .ok newState ∧
      (macos.display_callback query fresh id flags ui).2 =
        (macos.diffLoop newState ui.tracker.cached_state).map fun e =>
          (cb, .Available ⟨id⟩ e)) := by
  by_cases hb : flags.beginConfigurationFlag
  · left; simp [macos.display_callback, hb]
  · cases hcb : ui.callback with
    | none => left; simp [macos.display_callback, hb, hcb]
    | some cb =>
      by_cases ha : flags.addFlag
      · exact Or.inr (Or.inl ⟨cb, _, rfl,
          by simp [macos.display_callback, hb, hcb, ha], Or.inl rfl⟩)
      · by_cases hr : flags.removeFlag
        · exact Or.inr (Or.inl ⟨cb, _, rfl,
            by simp [macos.display_callback, hb, hcb, ha, hr],
            Or.inr (Or.inl rfl)⟩)
        · by_cases hm : flags.mirrorFlag
          · exact Or.inr (Or.inl ⟨cb, _, rfl,
              by simp [macos.display_callback, hb, hcb, ha, hr, hm],
              Or.inr (Or.inr (Or.inl rfl))⟩)
          · by_cases hu : flags.unMirrorFlag
            · exact Or.inr (Or.inl ⟨cb, _, rfl,
                by simp [macos.display_callback, hb, hcb, ha, hr, hm, hu],
                Or.inr (Or.inr (Or.inr rfl))⟩)
            · by_cases hs : (flags.setModeFlag || flags.movedFlag) = true
              · cases hf : fresh with
                | error e =>
                    left
                    simp [macos.display_callback, hb, hcb, ha, hr, hm, hu, hs,
                      macos.track_changes, hf]
                | ok newState =>
                    exact Or.inr (Or.inr ⟨cb, newState, rfl, rfl,
                      by simp [macos.display_callback, hb, hcb, ha, hr, hm, hu,
                        hs, macos.track_changes, hf]⟩)
              · left
                simp only [Bool.not_eq_true] at hs
                simp [macos.display_callback, hb, hcb, ha, hr, hm, hu, hs]

theorem windows_dispatch_target
    (fresh : Except windows.WindowsError windows.Snapshot)
    (msg wparam lparam : Nat) (ctx : windows.ObserverContext) :
    ∀ p ∈ (windows.wnd_proc fresh msg wparam lparam ctx).2,
      ctx.callback = some p.1 := by
  intro p hp
  unfold windows.wnd_proc at hp
  split at hp
  · rename_i newState events heq
    revert hp
    cases hcb : ctx.callback with
    | none => intro hp; simp at hp
    | some cb =>
        intro hp
        simp only [hcb, List.mem_map] at hp
        obtain ⟨e, -, rfl⟩ := hp
        rfl
  · simp at hp

theorem macos_display_callback_refresh
    (query : macos.MacOSDisplayId → macos.DisplayState)
    (fresh : Except macos.CGError macos.Snapshot) (id : macos.MacOSDisplayId)
    (flags : macos.CGDisplayChangeSummaryFlags) (ui : macos.UserInfo)
    (h : macos.requiresRefresh flags) :
    macos.display_callback query fresh id flags ui =
      match ui.callback with
      | none => (ui, [])
      | some cb =>
          match fresh with
          | .error _ => (ui, [])
          | .ok newState =>
              ({ ui with tracker := ⟨newState⟩ },
               (macos.diffLoop newState ui.tracker.cached_state).map fun e =>
                 (cb, macos.MayBeDisplayAvailable.Available ⟨id⟩ e)) := by
  obtain ⟨h1, h2, h3, h4, h5, h6⟩ := h
  rcases h6 with h6 | h6 <;> cases hcb : ui.callback <;> cases fresh <;>
    simp [macos.display_callback, h1, h2, h3, h4, h5, h6,
      macos.track_changes, hcb]

theorem windows_wnd_proc_displaychange
    (fresh : Except windows.WindowsError windows.Snapshot)
    (wparam lparam : Nat) (ctx : windows.ObserverContext) :
    windows.wnd_proc fresh windows.WM_DISPLAYCHANGE wparam lparam ctx =
      match fresh with
      | .error _ => (ctx, [])
      | .ok newState =>
          match ctx.callback with
          | some cb =>
              ({ ctx with tracker := ⟨newState⟩ },
               (windows.diffEvents ctx.tracker.cached_displays newState).map
                 fun e => (cb, e))
          | none => ({ ctx with tracker := ⟨newState⟩ }, []) := by
  cases fresh <;> cases hcb : ctx.callback <;>
    simp [windows.wnd_proc, windows.process_window_message,
      windows.track_events, Except.map, hcb]

/-! ### Claim theorems -/

/-- C1: for every notification processed while a snapshot refresh is
required, if the Snapshot Provider call fails then the retained snapshot
(and the whole locked state) after the notify call equals the one before
it, and no events are dispatched — on macOS (`display_callback` with a
geometry/mode hint) and on Windows (`wnd_proc`, any message). -/
theorem C1_provider_failure_silent
    (query : macos.MacOSDisplayId → macos.DisplayState) (e : macos.CGError)
    (id : macos.MacOSDisplayId) (flags : macos.CGDisplayChangeSummaryFlags)
    (ui : macos.UserInfo) (hflags : macos.requiresRefresh flags)
    (e' : windows.WindowsError) (msg wparam lparam : Nat)
    (ctx : windows.ObserverContext) :
    (macos.display_callback query (.error e) id flags ui).1 = ui ∧
    (macos.display_callback query (.error e) id flags ui).2 = [] ∧
    (windows.wnd_proc (.error e') msg wparam lparam ctx).1 = ctx ∧
    (windows.wnd_proc (.error e') msg wparam lparam ctx).2 = [] := by
  obtain ⟨h1, h2, h3, h4, h5, h6⟩ := hflags
  refine ⟨?_, ?_, ?_, ?_⟩
  · rcases h6 with h6 | h6 <;> cases hcb : ui.callback <;>
      simp [macos.display_callback, h1, h2, h3, h4, h5, h6,
        macos.track_changes, hcb]
  · rcases h6 with h6 | h6 <;> cases hcb : ui.callback <;>
      simp [macos.display_callback, h1, h2, h3, h4, h5, h6,
        macos.track_changes, hcb]
  · by_cases hm : msg = windows.WM_DISPLAYCHANGE <;>
      simp [windows.wnd_proc, windows.process_window_message, hm,
        windows.track_events, Except.map]
  · by_cases hm : msg = windows.WM_DISPLAYCHANGE <;>
      simp [windows.wnd_proc, windows.process_window_message, hm,
        windows.track_events, Except.map]

/-- Witness for C1 at a concrete refresh-requiring hint and state. -/
theorem C1_provider_failure_silent_witness :
    macos.requiresRefresh ⟨false, false, false, false, false, true, false⟩ ∧
    ((macos.display_callback (fun _ => ⟨⟨800, 600⟩, ⟨0, 0⟩⟩) (.error 1) 1
        ⟨false, false, false, false, false, true, false⟩
        ⟨some 0, ⟨[]⟩⟩).1 = ⟨some 0, ⟨[]⟩⟩ ∧
      (windows.wnd_proc (.error 1) windows.WM_DISPLAYCHANGE 0 0
        ⟨some 0, ⟨[]⟩⟩).2 = []) := by
  refine ⟨by decide, ?_⟩
  have h := C1_provider_failure_silent (fun _ => ⟨⟨800, 600⟩, ⟨0, 0⟩⟩) 1 1
    ⟨false, false, false, false, false, true, false⟩ ⟨some 0, ⟨[]⟩⟩
    (by decide) 1 windows.WM_DISPLAYCHANGE 0 0 ⟨some 0, ⟨[]⟩⟩
  exact ⟨h.1, h.2.2.2⟩

/-- C2: for every pair of raw OS hints carrying the same old retained
snapshot and leading to the same freshly captured snapshot, the event
sequence produced during notify is identical, regardless of the hints'
flags, display id, `wparam`/`lparam`, or the attribute oracle; on
success with a callback present it equals the pure diff of the two
snapshots' contents. -/
theorem C2_events_pure_function_of_snapshots
    (q1 q2 : macos.MacOSDisplayId → macos.DisplayState)
    (id1 id2 : macos.MacOSDisplayId)
    (flags1 flags2 : macos.CGDisplayChangeSummaryFlags)
    (ui : macos.UserInfo) (fresh : Except macos.CGError macos.Snapshot)
    (h1 : macos.requiresRefresh flags1) (h2 : macos.requiresRefresh flags2)
    (fresh' : Except windows.WindowsError windows.Snapshot)
    (w1 l1 w2 l2 : Nat) (ctx : windows.ObserverContext) :
    ((macos.display_callback q1 fresh id1 flags1 ui).2.map fun p =>
        macos.eventOfWrapped p.2) =
      ((macos.display_callback q2 fresh id2 flags2 ui).2.map fun p =>
        macos.eventOfWrapped p.2) ∧
    (∀ newState cb, fresh = .ok newState → ui.callback = some cb →
      ((macos.display_callback q1 fresh id1 flags1 ui).2.map fun p =>
        macos.eventOfWrapped p.2) =
        macos.diffLoop newState ui.tracker.cached_state) ∧
    (windows.wnd_proc fresh' windows.WM_DISPLAYCHANGE w1 l1 ctx).2.map Prod.snd =
      (windows.wnd_proc fresh' windows.WM_DISPLAYCHANGE w2 l2 ctx).2.map Prod.snd ∧
    (∀ newState cb, fresh' = .ok newState → ctx.callback = some cb →
      (windows.wnd_proc fresh' windows.WM_DISPLAYCHANGE w1 l1 ctx).2.map Prod.snd =
        windows.diffEvents ctx.tracker.cached_displays newState) := by
  rw [macos_display_callback_refresh q1 fresh id1 flags1 ui h1,
    macos_display_callback_refresh q2 fresh id2 flags2 ui h2,
    windows_wnd_proc_displaychange fresh' w1 l1 ctx,
    windows_wnd_proc_displaychange fresh' w2 l2 ctx]
  refine ⟨?_, ?_, ?_, ?_⟩
  · cases hcb : ui.callback <;> cases fresh <;>
      simp [macos.eventOfWrapped, List.map_map, Function.comp]
  · intro newState cb hf hcb
    subst hf
    simp only [hcb, List.map_map]
    exact List.map_id _
  · cases hcb : ctx.callback <;> cases fresh' <;>
      simp [List.map_map, Function.comp]
  · intro newState cb hf hcb
    subst hf
    simp [hcb, List.map_map, Function.comp]

/-- Witness for C2 at two concrete distinct refresh hints over the same
snapshots. -/
theorem C2_events_pure_function_of_snapshots_witness :
    macos.requiresRefresh ⟨false, false, false, false, false, true, false⟩ ∧
    macos.requiresRefresh ⟨false, false, false, false, false, false, true⟩ ∧
    ((macos.display_callback (fun _ => ⟨⟨800, 600⟩, ⟨0, 0⟩⟩)
        (.ok [(1, ⟨⟨1920, 1080⟩, ⟨0, 0⟩⟩)]) 1
        ⟨false, false, false, false, false, true, false⟩
        ⟨some 0, ⟨[(1, ⟨⟨800, 600⟩, ⟨0, 0⟩⟩)]⟩⟩).2.map fun p =>
          macos.eventOfWrapped p.2) =
      ((macos.display_callback (fun _ => ⟨⟨640, 480⟩, ⟨5, 5⟩⟩)
        (.ok [(1, ⟨⟨1920, 1080⟩, ⟨0, 0⟩⟩)]) 2
        ⟨false, false, false, false, false, false, true⟩
        ⟨some 0, ⟨[(1, ⟨⟨800, 600⟩, ⟨0, 0⟩⟩)]⟩⟩).2.map fun p =>
          macos.eventOfWrapped p.2) := by
  refine ⟨by decide, by decide, ?_⟩
  exact (C2_events_pure_function_of_snapshots
    (fun _ => ⟨⟨800, 600⟩, ⟨0, 0⟩⟩) (fun _ => ⟨⟨640, 480⟩, ⟨5, 5⟩⟩) 1 2
    ⟨false, false, false, false, false, true, false⟩
    ⟨false, false, false, false, false, false, true⟩
    ⟨some 0, ⟨[(1, ⟨⟨800, 600⟩, ⟨0, 0⟩⟩)]⟩⟩
    (.ok [(1, ⟨⟨1920, 1080⟩, ⟨0, 0⟩⟩)]) (by decide) (by decide)
    (.ok []) 0 0 1 1 ⟨some 0, ⟨[]⟩⟩).1

/-- C6: diffing a snapshot against itself yields the empty event
sequence, on both platforms (under the snapshot invariant that the key
set has no duplicates, which `HashMap` guarantees). -/
theorem C6_diff_self_empty (S : macos.Snapshot) (T : windows.Snapshot)
    (hS : (S.map Prod.fst).Nodup) (hT : (T.map Prod.fst).Nodup) :
    macos.diffLoop S S = [] ∧ windows.diffEvents T T = [] := by
  refine ⟨?_, ?_⟩
  · exact macos_diffLoop_nil_of_lookup S S fun p hp =>
      macos_lookupState_self hS hp
  · unfold windows.diffEvents
    rw [windows_changedLoop_nil_of_lookup T T fun p hp =>
        windows_lookupDisplay_self hT hp,
      windows_addedLoop_nil_of_contains T T fun p hp =>
        windows_containsKey_of_mem hp]
    rfl

/-- Witness for C6 at concrete one-display snapshots. -/
theorem C6_diff_self_empty_witness :
    macos.diffLoop [(1, ⟨⟨800, 600⟩, ⟨0, 0⟩⟩)] [(1, ⟨⟨800, 600⟩, ⟨0, 0⟩⟩)] = [] ∧
    windows.diffEvents [("D1", ⟨"D1", ⟨0, 0⟩, ⟨800, 600⟩, 1, true, false⟩)]
      [("D1", ⟨"D1", ⟨0, 0⟩, ⟨800, 600⟩, 1, true, false⟩)] = [] :=
  C6_diff_self_empty [(1, ⟨⟨800, 600⟩, ⟨0, 0⟩⟩)]
    [("D1", ⟨"D1", ⟨0, 0⟩, ⟨800, 600⟩, 1, true, false⟩)]
    (by decide) (by decide)

/-- C4 counterexample: on macOS, with no callback set, a geometry-change
notification whose fresh capture returns one display leaves the retained
snapshot untouched instead of updating it to the freshly captured state. -/
theorem C4_counterexample :
    (macos.display_callback (fun _ => ⟨⟨800, 600⟩, ⟨0, 0⟩⟩)
        (.ok [(1, ⟨⟨1920, 1080⟩, ⟨0, 0⟩⟩)]) 1
        ⟨false, false, false, false, false, true, false⟩
        ⟨none, ⟨[]⟩⟩).1.tracker.cached_state = [] ∧
    (macos.display_callback (fun _ => ⟨⟨800, 600⟩, ⟨0, 0⟩⟩)
        (.ok [(1, ⟨⟨1920, 1080⟩, ⟨0, 0⟩⟩)]) 1
        ⟨false, false, false, false, false, true, false⟩
        ⟨none, ⟨[]⟩⟩).1.tracker.cached_state ≠
      [(1, ⟨⟨1920, 1080⟩, ⟨0, 0⟩⟩)] := by
  decide

/-- C4 amended: on Windows, a `WM_DISPLAYCHANGE` received while no
callback is set still updates the retained snapshot to the freshly
captured state and dispatches nothing; on macOS, a notification received
while no callback is set is ignored entirely — the retained snapshot is
not updated and nothing is dispatched. -/
theorem C4_amended
    (snap : windows.Snapshot) (wparam lparam : Nat)
    (ctx : windows.ObserverContext) (hc : ctx.callback = none)
    (query : macos.MacOSDisplayId → macos.DisplayState)
    (fresh : Except macos.CGError macos.Snapshot) (id : macos.MacOSDisplayId)
    (flags : macos.CGDisplayChangeSummaryFlags) (ui : macos.UserInfo)
    (hu : ui.callback = none) :
    (windows.wnd_proc (.ok snap) windows.WM_DISPLAYCHANGE wparam lparam
        ctx).1.tracker.cached_displays = snap ∧
    (windows.wnd_proc (.ok snap) windows.WM_DISPLAYCHANGE wparam lparam
        ctx).2 = [] ∧
    macos.display_callback query fresh id flags ui = (ui, []) := by
  rw [windows_wnd_proc_displaychange]
  refine ⟨by simp [hc], by simp [hc], ?_⟩
  by_cases hb : flags.beginConfigurationFlag <;>
    simp [macos.display_callback, hb, hu]

/-- Witness for C4 amended at concrete states with no callback set. -/
theorem C4_amended_witness :
    (windows.wnd_proc (.ok [("D1", ⟨"D1", ⟨0, 0⟩, ⟨800, 600⟩, 1, true, false⟩)])
        windows.WM_DISPLAYCHANGE 0 0 ⟨none, ⟨[]⟩⟩).1.tracker.cached_displays =
      [("D1", ⟨"D1", ⟨0, 0⟩, ⟨800, 600⟩, 1, true, false⟩)] ∧
    macos.display_callback (fun _ => ⟨⟨800, 600⟩, ⟨0, 0⟩⟩) (.ok []) 1
      ⟨false, true, false, false, false, false, false⟩ ⟨none, ⟨[]⟩⟩ =
      (⟨none, ⟨[]⟩⟩, []) := by
  have h := C4_amended [("D1", ⟨"D1", ⟨0, 0⟩, ⟨800, 600⟩, 1, true, false⟩)]
    0 0 ⟨none, ⟨[]⟩⟩ rfl (fun _ => ⟨⟨800, 600⟩, ⟨0, 0⟩⟩) (.ok []) 1
    ⟨false, true, false, false, false, false, false⟩ ⟨none, ⟨[]⟩⟩ rfl
  exact ⟨h.1, h.2.2⟩

/-- C7 counterexample: the affected display's id is not recoverable from
an `Event` value alone — the `Added` events dispatched for displays 1
and 2 are the same value, so no recovery function exists. -/
theorem C7_counterexample :
    ¬ ∃ recover : macos.Event → macos.MacOSDisplayId,
      ∀ (id : macos.MacOSDisplayId)
        (query : macos.MacOSDisplayId → macos.DisplayState)
        (fresh : Except macos.CGError macos.Snapshot) (ui : macos.UserInfo),
        ∀ p ∈ (macos.display_callback query fresh id
            ⟨false, true, false, false, false, false, false⟩ ui).2,
          recover (macos.eventOfWrapped p.2) = id := by
  rintro ⟨recover, h⟩
  have e1 : recover macos.Event.Added = 1 := by
    have := h 1 (fun _ => ⟨⟨800, 600⟩, ⟨0, 0⟩⟩) (.ok []) ⟨some 0, ⟨[]⟩⟩
      (0, .Available ⟨1⟩ .Added) (by decide)
    simpa [macos.eventOfWrapped] using this
  have e2 : recover macos.Event.Added = 2 := by
    have := h 2 (fun _ => ⟨⟨800, 600⟩, ⟨0, 0⟩⟩) (.ok []) ⟨some 0, ⟨[]⟩⟩
      (0, .Available ⟨2⟩ .Added) (by decide)
    simpa [macos.eventOfWrapped] using this
  exact absurd (e1.symm.trans e2) (by decide)

/-- C7 amended: inside the `Event` union only `Removed` carries the
affected `DisplayId`; the association of every dispatched event with
exactly one display id instead lives in the dispatch wrapper: every
wrapper dispatched by the macOS notification path recovers the
notification's display id, through the live handle for `Available`
wrappers and through the embedded id for `Removed`. -/
theorem C7_amended
    (query : macos.MacOSDisplayId → macos.DisplayState)
    (fresh : Except macos.CGError macos.Snapshot) (id : macos.MacOSDisplayId)
    (flags : macos.CGDisplayChangeSummaryFlags) (ui : macos.UserInfo) :
    ∀ p ∈ (macos.display_callback query fresh id flags ui).2,
      macos.affectedId p.2 = some id := by
  intro p hp
  rcases macos_display_callback_batch_cases query fresh id flags ui with
    hnil | ⟨cb, w, hcb, hbatch, hw⟩ | ⟨cb, newState, hcb, hf, hbatch⟩
  · rw [hnil] at hp; cases hp
  · rw [hbatch] at hp
    rcases List.mem_singleton.mp hp with rfl
    rcases hw with rfl | rfl | rfl | rfl <;> rfl
  · rw [hbatch] at hp
    rcases List.mem_map.mp hp with ⟨e, -, rfl⟩
    rfl

/-- Witness for C7 amended at a concrete dispatched wrapper. -/
theorem C7_amended_witness :
    macos.affectedId (macos.MayBeDisplayAvailable.Available ⟨5⟩ .Added) =
      some 5 :=
  C7_amended (fun _ => ⟨⟨800, 600⟩, ⟨0, 0⟩⟩) (.ok []) 5
    ⟨false, true, false, false, false, false, false⟩ ⟨some 0, ⟨[]⟩⟩
    (0, .Available ⟨5⟩ .Added) (by decide)

/-- Recogniser for an `Available`-wrapped event carrying a live handle for display `rid`. -/
def macos.isAvailableFor (rid : macos.MacOSDisplayId) :
    macos.MayBeDisplayAvailable → Bool
  | .Available d _ => d.id = rid
  | .NotAvailable _ => false

/-- C8: if a notification batch contains a `Removed` event for some id,
the batch contains no `Available`-wrapped event (one carrying a live
display handle) for that same id — in fact the remove branch dispatches
exactly one `NotAvailable` wrapper and nothing else. -/
theorem C8_removed_never_with_available
    (query : macos.MacOSDisplayId → macos.DisplayState)
    (fresh : Except macos.CGError macos.Snapshot) (id : macos.MacOSDisplayId)
    (flags : macos.CGDisplayChangeSummaryFlags) (ui : macos.UserInfo)
    (rid : macos.MacOSDisplayId)
    (hmem : macos.MayBeDisplayAvailable.NotAvailable (macos.Event.Removed rid) ∈
      (macos.display_callback query fresh id flags ui).2.map Prod.snd) :
    ∀ w ∈ (macos.display_callback query fresh id flags ui).2.map Prod.snd,
      macos.isAvailableFor rid w = false := by
  intro w hw
  rcases macos_display_callback_batch_cases query fresh id flags ui with
    hnil | ⟨cb, w', hcb, hbatch, hw'⟩ | ⟨cb, newState, hcb, hf, hbatch⟩
  · rw [hnil] at hmem; cases hmem
  · rw [hbatch] at hmem hw
    simp only [List.map_cons, List.map_nil, List.mem_singleton] at hmem hw
    rw [hw, ← hmem]
    rfl
  · rw [hbatch] at hmem
    simp only [List.map_map, List.mem_map, Function.comp] at hmem
    obtain ⟨e', -, habs⟩ := hmem
    cases habs

/-- Witness for C8 at a concrete remove notification. -/
theorem C8_removed_never_with_available_witness :
    macos.isAvailableFor 5
      (macos.MayBeDisplayAvailable.NotAvailable (macos.Event.Removed 5)) =
      false :=
  C8_removed_never_with_available (fun _ => ⟨⟨800, 600⟩, ⟨0, 0⟩⟩) (.ok []) 5
    ⟨false, false, true, false, false, false, false⟩ ⟨some 0, ⟨[]⟩⟩ 5
    (by decide) (.NotAvailable (.Removed 5)) (by decide)

/-- C9: `set_callback` replaces the previous callback: after
`set_callback(A)` then `set_callback(B)`, every dispatched event on
either platform reaches `B` only and never `A`. -/
theorem C9_set_callback_replaces (A B : CallbackId) (hAB : A ≠ B)
    (query : macos.MacOSDisplayId → macos.DisplayState)
    (fresh : Except macos.CGError macos.Snapshot) (id : macos.MacOSDisplayId)
    (flags : macos.CGDisplayChangeSummaryFlags) (ui : macos.UserInfo)
    (fresh' : Except windows.WindowsError windows.Snapshot)
    (msg wparam lparam : Nat) (ctx : windows.ObserverContext) :
    (∀ p ∈ (macos.display_callback query fresh id flags
        (macos.set_callback B (macos.set_callback A ui))).2,
      p.1 = B ∧ p.1 ≠ A) ∧
    (∀ p ∈ (windows.wnd_proc fresh' msg wparam lparam
        (windows.set_callback B (windows.set_callback A ctx))).2,
      p.1 = B ∧ p.1 ≠ A) := by
  constructor
  · intro p hp
    rcases macos_display_callback_batch_cases query fresh id flags
        (macos.set_callback B (macos.set_callback A ui)) with
      hnil | ⟨cb, w, hcb, hbatch, -⟩ | ⟨cb, newState, hcb, hf, hbatch⟩
    · rw [hnil] at hp; cases hp
    · rw [hbatch] at hp
      rcases List.mem_singleton.mp hp with rfl
      have hB : cb = B := by
        have : some B = some cb := hcb
        exact (Option.some.injEq _ _ ▸ this).symm
      exact ⟨hB, fun hA => hAB (hA ▸ hB ▸ rfl)⟩
    · rw [hbatch] at hp
      rcases List.mem_map.mp hp with ⟨e, -, rfl⟩
      have hB : cb = B := by
        have : some B = some cb := hcb
        exact (Option.some.injEq _ _ ▸ this).symm
      exact ⟨hB, fun hA => hAB (hA ▸ hB ▸ rfl)⟩
  · intro p hp
    have h := windows_dispatch_target fresh' msg wparam lparam
      (windows.set_callback B (windows.set_callback A ctx)) p hp
    have hB : p.1 = B := by
      have : some B = some p.1 := h
      exact (Option.some.injEq _ _ ▸ this).symm
    exact ⟨hB, fun hA => hAB (hA ▸ hB ▸ rfl)⟩

/-- Witness for C9 at a concrete pair of registrations and a concrete
dispatched event. -/
theorem C9_set_callback_replaces_witness : (2 : CallbackId) = 2 ∧ (2 : CallbackId) ≠ 1 :=
  (C9_set_callback_replaces 1 2 (by decide) (fun _ => ⟨⟨800, 600⟩, ⟨0, 0⟩⟩)
    (.ok []) 7 ⟨false, true, false, false, false, false, false⟩
    ⟨none, ⟨[]⟩⟩ (.ok []) 0 0 0 ⟨none, ⟨[]⟩⟩).1
    (2, .Available ⟨7⟩ .Added) (by decide)

/-- C10: the macOS snapshot provider queries the OS with fixed capacity
`MAX_DISPLAYS = 20`, so it never returns more than 20 displays and any
active display beyond the first 20 is silently omitted from the result. -/
theorem C10_get_displays_capped (osActive : List macos.MacOSDisplayId) :
    (macos.get_displays osActive).length ≤ 20 ∧
    macos.get_displays osActive =
      (osActive.take 20).map macos.MacOSDisplay.new ∧
    (osActive.Nodup → ∀ d ∈ osActive.drop 20,
      macos.MacOSDisplay.new d ∉ macos.get_displays osActive) := by
  have heq : macos.get_displays osActive =
      (osActive.take 20).map macos.MacOSDisplay.new := by
    unfold macos.get_displays macos.CGGetActiveDisplayList macos.MAX_DISPLAYS
    simp only [List.take_take]
    congr 1
    have hmin : min (min osActive.length 20) 20 = min osActive.length 20 := by
      omega
    rw [hmin]
    rcases le_or_lt osActive.length 20 with h | h
    · rw [Nat.min_eq_left h, List.take_length, List.take_of_length_le h]
    · rw [Nat.min_eq_right (Nat.le_of_lt h)]
  refine ⟨?_, heq, ?_⟩
  · rw [heq, List.length_map, List.length_take]
    omega
  · intro hnd d hd hcontra
    rw [heq] at hcontra
    rcases List.mem_map.mp hcontra with ⟨x, hx, hxd⟩
    have hxd' : x = d := by
      simpa [macos.MacOSDisplay.new, macos.MacOSDisplay.mk.injEq] using hxd
    subst hxd'
    exact (List.disjoint_take_drop hnd (le_refl 20)) hx hd

/-- Witness for C10 at a 21-display configuration: the 21st display id
is dropped. -/
theorem C10_get_displays_capped_witness :
    (macos.get_displays (List.range 21)).length ≤ 20 ∧
    macos.MacOSDisplay.new 20 ∉ macos.get_displays (List.range 21) := by
  have h := C10_get_displays_capped (List.range 21)
  exact ⟨h.1, h.2.2 (List.nodup_range 21) 20 (by decide)⟩

theorem windows_attributeEvents_shapes (b a : windows.Display) :
    ∀ e ∈ windows.attributeEvents b a,
      (∃ s t, e = windows.Event.SizeChanged a s t) ∨
      (∃ s t, e = windows.Event.OriginChanged a s t) ∨
      e = windows.Event.Mirrored a ∨ e = windows.Event.UnMirrored a := by
  intro e he
  unfold windows.attributeEvents at he
  rcases List.mem_append.mp he with he | he
  · rcases List.mem_append.mp he with he | he
    · revert he; split
      · intro he
        rcases List.mem_singleton.mp he with rfl
        exact Or.inl ⟨_, _, rfl⟩
      · intro he; simp at he
    · revert he; split
      · intro he
        rcases List.mem_singleton.mp he with rfl
        exact Or.inr (Or.inl ⟨_, _, rfl⟩)
      · intro he; simp at he
  · revert he; split
    · intro he
      rcases List.mem_singleton.mp he with rfl
      split
      · exact Or.inr (Or.inr (Or.inl rfl))
      · exact Or.inr (Or.inr (Or.inr rfl))
    · intro he; simp at he

theorem windows_attributeEvents_not_removed (id : windows.WindowsDisplayId)
    (b a : windows.Display) :
    ∀ e ∈ windows.attributeEvents b a, ¬(windows.isRemovedFor id e = true) := by
  intro e he
  rcases windows_attributeEvents_shapes b a e he with
    ⟨s, t, rfl⟩ | ⟨s, t, rfl⟩ | rfl | rfl <;> simp [windows.isRemovedFor]

theorem windows_attributeEvents_not_added (id : windows.WindowsDisplayId)
    (b a : windows.Display) :
    ∀ e ∈ windows.attributeEvents b a, ¬(windows.isAddedFor id e = true) := by
  intro e he
  rcases windows_attributeEvents_shapes b a e he with
    ⟨s, t, rfl⟩ | ⟨s, t, rfl⟩ | rfl | rfl <;> simp [windows.isAddedFor]

theorem windows_attributeEvents_eventId (b a : windows.Display) :
    ∀ e ∈ windows.attributeEvents b a, windows.eventId e = a.id := by
  intro e he
  rcases windows_attributeEvents_shapes b a e he with
    ⟨s, t, rfl⟩ | ⟨s, t, rfl⟩ | rfl | rfl <;> rfl

theorem windows_mem_of_containsKey {id : windows.WindowsDisplayId} :
    ∀ {s : windows.Snapshot}, windows.containsKey id s = true →
      id ∈ s.map Prod.fst := by
  intro s
  induction s with
  | nil => intro h; simp [windows.containsKey] at h
  | cons p rest ih =>
      obtain ⟨k, v⟩ := p
      intro h
      simp only [windows.containsKey, Bool.or_eq_true, decide_eq_true_eq] at h
      rcases h with h | h
      · simp [h]
      · simp [ih h]

theorem windows_lookup_none_iff (id : windows.WindowsDisplayId)
    (s : windows.Snapshot) :
    windows.lookupDisplay id s = none ↔ windows.containsKey id s = false := by
  induction s with
  | nil => simp [windows.lookupDisplay, windows.containsKey]
  | cons p rest ih =>
      obtain ⟨k, v⟩ := p
      by_cases hk : k = id <;>
        simp [windows.lookupDisplay, windows.containsKey, hk, ih]

theorem windows_lookup_wf :
    ∀ (s : windows.Snapshot), windows.WellFormed s →
      ∀ {id : windows.WindowsDisplayId} {d : windows.Display},
        windows.lookupDisplay id s = some d → d.id = id := by
  intro s
  induction s with
  | nil => intro _ id d h; simp [windows.lookupDisplay] at h
  | cons p rest ih =>
      intro hwf id d h
      obtain ⟨k, v⟩ := p
      by_cases hk : k = id
      · simp only [windows.lookupDisplay, if_pos hk, Option.some.injEq] at h
        subst h
        have := hwf (k, v) (List.mem_cons_self _ _)
        simpa [hk] using this
      · simp only [windows.lookupDisplay, if_neg hk] at h
        exact ih (fun q hq => hwf q (List.mem_cons_of_mem _ hq)) h

theorem windows_changedLoop_countP_removed (id : windows.WindowsDisplayId)
    (after : windows.Snapshot) :
    ∀ before : windows.Snapshot, (before.map Prod.fst).Nodup →
      (windows.changedLoop after before).countP (windows.isRemovedFor id) =
        if windows.containsKey id before = true ∧
            windows.containsKey id after = false
        then 1 else 0 := by
  intro before
  induction before with
  | nil => intro _; simp [windows.changedLoop, windows.containsKey]
  | cons p rest ih =>
      intro hnd
      obtain ⟨k, b⟩ := p
      simp only [List.map_cons, List.nodup_cons] at hnd
      obtain ⟨hk_not, hnd'⟩ := hnd
      by_cases hk : k = id
      · subst hk
        have hrest : windows.containsKey k rest = false := by
          cases hc : windows.containsKey k rest
          · rfl
          · exact absurd (windows_mem_of_containsKey hc) hk_not
        rcases hl : windows.lookupDisplay k after with _ | a
        · have hca : windows.containsKey k after = false :=
            (windows_lookup_none_iff k after).mp hl
          simp [windows.changedLoop, hl, List.countP_append, ih hnd',
            windows.containsKey, hrest, hca, List.countP_cons,
            windows.isRemovedFor]
        · have hca : windows.containsKey k after = true := by
            cases hc : windows.containsKey k after
            · rw [(windows_lookup_none_iff k after).mpr hc] at hl; cases hl
            · rfl
          simp [windows.changedLoop, hl, List.countP_append, ih hnd',
            windows.containsKey, hrest, hca,
            List.countP_eq_zero.mpr (windows_attributeEvents_not_removed k b a)]
      · rcases hl : windows.lookupDisplay k after with _ | a
        · simp [windows.changedLoop, hl, List.countP_append, ih hnd',
            windows.containsKey, hk, List.countP_cons, windows.isRemovedFor]
        · simp [windows.changedLoop, hl, List.countP_append, ih hnd',
            windows.containsKey, hk,
            List.countP_eq_zero.mpr (windows_attributeEvents_not_removed id b a)]

theorem windows_addedLoop_countP_removed (id : windows.WindowsDisplayId)
    (before : windows.Snapshot) :
    ∀ after : windows.Snapshot,
      (windows.addedLoop before after).countP (windows.isRemovedFor id) = 0 := by
  intro after
  induction after with
  | nil => simp [windows.addedLoop]
  | cons p rest ih =>
      obtain ⟨k, d⟩ := p
      by_cases hc : windows.containsKey k before <;>
        simp [windows.addedLoop, hc, List.countP_append, List.countP_cons,
          windows.isRemovedFor, ih]

theorem windows_changedLoop_countP_added (id : windows.WindowsDisplayId)
    (after : windows.Snapshot) :
    ∀ before : windows.Snapshot,
      (windows.changedLoop after before).countP (windows.isAddedFor id) = 0 := by
  intro before
  induction before with
  | nil => simp [windows.changedLoop]
  | cons p rest ih =>
      obtain ⟨k, b⟩ := p
      rcases hl : windows.lookupDisplay k after with _ | a
      · simp [windows.changedLoop, hl, List.countP_append, List.countP_cons,
          windows.isAddedFor, ih]
      · simp [windows.changedLoop, hl, List.countP_append, ih,
          List.countP_eq_zero.mpr (windows_attributeEvents_not_added id b a)]

theorem windows_addedLoop_countP_added (id : windows.WindowsDisplayId)
    (before : windows.Snapshot) :
    ∀ after : windows.Snapshot, (after.map Prod.fst).Nodup →
      windows.WellFormed after →
      (windows.addedLoop before after).countP (windows.isAddedFor id) =
        if windows.containsKey id after = true ∧
            windows.containsKey id before = false
        then 1 else 0 := by
  intro after
  induction after with
  | nil => intro _ _; simp [windows.addedLoop, windows.containsKey]
  | cons p rest ih =>
      intro hnd hwf
      obtain ⟨k, d⟩ := p
      simp only [List.map_cons, List.nodup_cons] at hnd
      obtain ⟨hk_not, hnd'⟩ := hnd
      have hdk : d.id = k := hwf (k, d) (List.mem_cons_self _ _)
      have hwf' : windows.WellFormed rest :=
        fun q hq => hwf q (List.mem_cons_of_mem _ hq)
      by_cases hk : k = id
      · subst hk
        have hrest : windows.containsKey k rest = false := by
          cases hc : windows.containsKey k rest
          · rfl
          · exact absurd (windows_mem_of_containsKey hc) hk_not
        by_cases hcb : windows.containsKey k before = true
        · simp [windows.addedLoop, hcb, List.countP_append, ih hnd' hwf',
            windows.containsKey, hrest]
        · simp only [Bool.not_eq_true] at hcb
          simp [windows.addedLoop, hcb, List.countP_append, List.countP_cons,
            windows.isAddedFor, hdk, ih hnd' hwf', windows.containsKey, hrest]
      · by_cases hcb : windows.containsKey k before = true
        · simp [windows.addedLoop, hcb, List.countP_append, ih hnd' hwf',
            windows.containsKey, hk]
        · simp only [Bool.not_eq_true] at hcb
          simp [windows.addedLoop, hcb, List.countP_append, List.countP_cons,
            windows.isAddedFor, hdk, hk, ih hnd' hwf', windows.containsKey]

/-- C3 counterexample: the macOS diff emits no `Added` (and no `Removed`)
event at all — for snapshots differing by exactly one added id, the
macOS `track_changes` result is empty rather than `[Added(X)]`. -/
theorem C3_counterexample :
    macos.track_changes [] (.ok [(1, ⟨⟨1920, 1080⟩, ⟨0, 0⟩⟩)]) =
      .ok ([(1, ⟨⟨1920, 1080⟩, ⟨0, 0⟩⟩)], []) ∧
    ¬ ((macos.diffLoop [(1, ⟨⟨1920, 1080⟩, ⟨0, 0⟩⟩)] []).countP
        macos.isAdded = 1) :=
  ⟨rfl, by decide⟩

/-- C3 amended: the Windows diff emits exactly one `Removed` per id
present only in the old snapshot and exactly one `Added` per id present
only in the new one (and, for snapshots differing by exactly one added
id X, yields exactly `[Added(X)]` resp. `[Removed(X)]`); the macOS diff,
by contrast, emits no `Added` or `Removed` events at all — additions and
removals are handled there by the dedicated add/remove flag branches of
`display_callback`, not by the diff. -/
theorem C3_amended :
    (∀ before after : macos.Snapshot, ∀ e ∈ macos.diffLoop after before,
      macos.isAdded e = false ∧ macos.isRemoved e = false) ∧
    (∀ before after : windows.Snapshot,
      (before.map Prod.fst).Nodup → (after.map Prod.fst).Nodup →
      windows.WellFormed after →
      ∀ id : windows.WindowsDisplayId,
        ((windows.diffEvents before after).countP (windows.isRemovedFor id) =
          if windows.containsKey id before = true ∧
              windows.containsKey id after = false then 1 else 0) ∧
        ((windows.diffEvents before after).countP (windows.isAddedFor id) =
          if windows.containsKey id after = true ∧
              windows.containsKey id before = false then 1 else 0)) ∧
    windows.diffEvents [("D1", ⟨"D1", ⟨0, 0⟩, ⟨1920, 1080⟩, 1, true, false⟩)]
        [("D1", ⟨"D1", ⟨0, 0⟩, ⟨1920, 1080⟩, 1, true, false⟩),
         ("X", ⟨"X", ⟨1920, 0⟩, ⟨1280, 1024⟩, 1, false, false⟩)] =
      [windows.Event.Added ⟨"X", ⟨1920, 0⟩, ⟨1280, 1024⟩, 1, false, false⟩] ∧
    windows.diffEvents
        [("D1", ⟨"D1", ⟨0, 0⟩, ⟨1920, 1080⟩, 1, true, false⟩),
         ("X", ⟨"X", ⟨1920, 0⟩, ⟨1280, 1024⟩, 1, false, false⟩)]
        [("D1", ⟨"D1", ⟨0, 0⟩, ⟨1920, 1080⟩, 1, true, false⟩)] =
      [windows.Event.Removed "X"] := by
  refine ⟨?_, ?_, by decide, by decide⟩
  · intro before after e he
    rcases macos_diffLoop_shapes after before e he with ⟨s, t, rfl⟩ | ⟨s, t, rfl⟩ <;>
      exact ⟨rfl, rfl⟩
  · intro before after hndB hndA hwfA id
    constructor
    · unfold windows.diffEvents
      rw [List.countP_append,
        windows_changedLoop_countP_removed id after before hndB,
        windows_addedLoop_countP_removed id before after]
      simp
    · unfold windows.diffEvents
      rw [List.countP_append,
        windows_changedLoop_countP_added id after before,
        windows_addedLoop_countP_added id before after hndA hwfA]
      simp

/-- Witness for C3 amended at the one-added-id snapshot pair. -/
theorem C3_amended_witness :
    (windows.diffEvents [("D1", ⟨"D1", ⟨0, 0⟩, ⟨1920, 1080⟩, 1, true, false⟩)]
        [("D1", ⟨"D1", ⟨0, 0⟩, ⟨1920, 1080⟩, 1, true, false⟩),
         ("X", ⟨"X", ⟨1920, 0⟩, ⟨1280, 1024⟩, 1, false, false⟩)]).countP
      (windows.isAddedFor "X") = 1 ∧
    (windows.diffEvents [("D1", ⟨"D1", ⟨0, 0⟩, ⟨1920, 1080⟩, 1, true, false⟩)]
        [("D1", ⟨"D1", ⟨0, 0⟩, ⟨1920, 1080⟩, 1, true, false⟩),
         ("X", ⟨"X", ⟨1920, 0⟩, ⟨1280, 1024⟩, 1, false, false⟩)]).countP
      (windows.isRemovedFor "X") = 0 := by
  have h := C3_amended.2.1
    [("D1", ⟨"D1", ⟨0, 0⟩, ⟨1920, 1080⟩, 1, true, false⟩)]
    [("D1", ⟨"D1", ⟨0, 0⟩, ⟨1920, 1080⟩, 1, true, false⟩),
     ("X", ⟨"X", ⟨1920, 0⟩, ⟨1280, 1024⟩, 1, false, false⟩)]
    (by decide) (by decide) (by decide) "X"
  refine ⟨?_, ?_⟩
  · rw [h.2]; decide
  · rw [h.1]; decide

theorem windows_changedLoop_filter_none (id : windows.WindowsDisplayId)
    (after : windows.Snapshot) (hwfA : windows.WellFormed after) :
    ∀ before : windows.Snapshot, windows.lookupDisplay id before = none →
      (windows.changedLoop after before).filter
        (fun e => decide (windows.eventId e = id)) = [] := by
  intro before
  induction before with
  | nil => intro _; rfl
  | cons p rest ih =>
      intro hnone
      obtain ⟨k, b'⟩ := p
      by_cases hk : k = id
      · simp [windows.lookupDisplay, hk] at hnone
      · simp only [windows.lookupDisplay, if_neg hk] at hnone
        rcases hl : windows.lookupDisplay k after with _ | a'
        · simp only [windows.changedLoop, hl, List.filter_append]
          rw [ih hnone, List.append_nil]
          simp [windows.eventId, hk]
        · have ha'id : a'.id = k := windows_lookup_wf after hwfA hl
          have hseg : (windows.attributeEvents b' a').filter
              (fun e => decide (windows.eventId e = id)) = [] := by
            rw [List.filter_eq_nil_iff]
            intro e he
            simp [windows_attributeEvents_eventId b' a' e he, ha'id, hk]
          simp only [windows.changedLoop, hl, List.filter_append]
          rw [ih hnone, hseg]
          rfl

theorem windows_changedLoop_filter_some (id : windows.WindowsDisplayId)
    (after : windows.Snapshot) (hwfA : windows.WellFormed after)
    (a : windows.Display) (ha : windows.lookupDisplay id after = some a) :
    ∀ (before : windows.Snapshot) (b : windows.Display),
      (before.map Prod.fst).Nodup →
      windows.lookupDisplay id before = some b →
      (windows.changedLoop after before).filter
        (fun e => decide (windows.eventId e = id)) =
        windows.attributeEvents b a := by
  intro before
  induction before with
  | nil => intro b _ hb; simp [windows.lookupDisplay] at hb
  | cons p rest ih =>
      intro b hnd hb
      obtain ⟨k, b'⟩ := p
      simp only [List.map_cons, List.nodup_cons] at hnd
      obtain ⟨hk_not, hnd'⟩ := hnd
      by_cases hk : k = id
      · subst hk
        have hb' : b' = b := by simpa [windows.lookupDisplay] using hb
        subst hb'
        have hrest_none : windows.lookupDisplay k rest = none := by
          apply (windows_lookup_none_iff k rest).mpr
          cases hc : windows.containsKey k rest
          · rfl
          · exact absurd (windows_mem_of_containsKey hc) hk_not
        have haid : a.id = k := windows_lookup_wf after hwfA ha
        simp only [windows.changedLoop, ha, List.filter_append]
        rw [windows_changedLoop_filter_none k after hwfA rest hrest_none,
          List.append_nil, List.filter_eq_self]
        intro e he
        simp [windows_attributeEvents_eventId b' a e he, haid]
      · simp only [windows.lookupDisplay, if_neg hk] at hb
        rcases hl : windows.lookupDisplay k after with _ | a'
        · simp only [windows.changedLoop, hl, List.filter_append]
          rw [ih b hnd' hb]
          simp [windows.eventId, hk]
        · have ha'id : a'.id = k := windows_lookup_wf after hwfA hl
          have hseg : (windows.attributeEvents b' a').filter
              (fun e => decide (windows.eventId e = id)) = [] := by
            rw [List.filter_eq_nil_iff]
            intro e he
            simp [windows_attributeEvents_eventId b' a' e he, ha'id, hk]
          simp only [windows.changedLoop, hl, List.filter_append]
          rw [ih b hnd' hb, hseg, List.nil_append]

theorem windows_addedLoop_filter (id : windows.WindowsDisplayId)
    (before : windows.Snapshot)
    (hcb : windows.containsKey id before = true) :
    ∀ after : windows.Snapshot, windows.WellFormed after →
      (windows.addedLoop before after).filter
        (fun e => decide (windows.eventId e = id)) = [] := by
  intro after
  induction after with
  | nil => intro _; rfl
  | cons p rest ih =>
      intro hwf
      obtain ⟨k, d⟩ := p
      have hdk : d.id = k := hwf (k, d) (List.mem_cons_self _ _)
      have hwf' : windows.WellFormed rest :=
        fun q hq => hwf q (List.mem_cons_of_mem _ hq)
      by_cases hc : windows.containsKey k before = true
      · simp only [windows.addedLoop, hc, if_true, List.nil_append]
        exact ih hwf'
      · have hk : ¬k = id := by
          intro h; rw [h] at hc; exact hc hcb
        simp only [Bool.not_eq_true] at hc
        simp only [windows.addedLoop, hc, List.filter_append]
        rw [ih hwf']
        simp [windows.eventId, hdk, hk]

/-- C5: for a display present in both snapshots, the diff emits exactly
that display's attribute events in the fixed order SizeChanged (if the
size differs), then OriginChanged (if the origin differs), then Mirrored
or UnMirrored (if the mirrored flag transitioned), shown here for the
Windows diff, whose snapshots carry the mirrored flag; the macOS diff
emits the same fixed SizeChanged-then-OriginChanged order per display
and no mirror events (its cached state holds no mirrored flag, so no
transition can be observed by the diff); and the claim's concrete
example yields exactly [SizeChanged, OriginChanged] in that order on
both platforms. -/
theorem C5_attribute_events_fixed_order
    (before after : windows.Snapshot) (id : windows.WindowsDisplayId)
    (b a : windows.Display)
    (hndB : (before.map Prod.fst).Nodup) (hwfA : windows.WellFormed after)
    (hb : windows.lookupDisplay id before = some b)
    (ha : windows.lookupDisplay id after = some a) :
    (windows.diffEvents before after).filter
        (fun e => decide (windows.eventId e = id)) =
      (if b.size ≠ a.size
       then [windows.Event.SizeChanged a b.size a.size] else []) ++
      (if b.origin ≠ a.origin
       then [windows.Event.OriginChanged a b.origin a.origin] else []) ++
      (if b.is_mirrored ≠ a.is_mirrored
       then [if a.is_mirrored then windows.Event.Mirrored a
             else windows.Event.UnMirrored a] else []) ∧
    (∀ (mb ma : macos.Snapshot), ∀ e ∈ macos.diffLoop ma mb,
      macos.isMirrorEvent e = false) ∧
    macos.attributeEvents ⟨⟨800, 600⟩, ⟨0, 0⟩⟩ ⟨⟨1920, 1080⟩, ⟨100, 0⟩⟩ =
      [macos.Event.SizeChanged ⟨800, 600⟩ ⟨1920, 1080⟩,
       macos.Event.OriginChanged ⟨0, 0⟩ ⟨100, 0⟩] ∧
    windows.attributeEvents ⟨"D", ⟨0, 0⟩, ⟨800, 600⟩, 1, true, false⟩
        ⟨"D", ⟨100, 0⟩, ⟨1920, 1080⟩, 1, true, false⟩ =
      [windows.Event.SizeChanged ⟨"D", ⟨100, 0⟩, ⟨1920, 1080⟩, 1, true, false⟩
         ⟨800, 600⟩ ⟨1920, 1080⟩,
       windows.Event.OriginChanged
         ⟨"D", ⟨100, 0⟩, ⟨1920, 1080⟩, 1, true, false⟩
         ⟨0, 0⟩ ⟨100, 0⟩] := by
  refine ⟨?_, ?_, by decide, by decide⟩
  · have hcb : windows.containsKey id before = true := by
      cases hc : windows.containsKey id before
      · rw [(windows_lookup_none_iff id before).mpr hc] at hb; cases hb
      · rfl
    unfold windows.diffEvents
    rw [List.filter_append,
      windows_changedLoop_filter_some id after hwfA a ha before b hndB hb,
      windows_addedLoop_filter id before hcb after hwfA, List.append_nil]
    rfl
  · intro mb ma e he
    rcases macos_diffLoop_shapes ma mb e he with ⟨s, t, rfl⟩ | ⟨s, t, rfl⟩ <;>
      rfl

/-- Witness for C5 at the claim's concrete before/after states. -/
theorem C5_attribute_events_fixed_order_witness :
    (windows.diffEvents [("D", ⟨"D", ⟨0, 0⟩, ⟨800, 600⟩, 1, true, false⟩)]
        [("D", ⟨"D", ⟨100, 0⟩, ⟨1920, 1080⟩, 1, true, false⟩)]).filter
      (fun e => decide (windows.eventId e = "D")) =
      [windows.Event.SizeChanged ⟨"D", ⟨100, 0⟩, ⟨1920, 1080⟩, 1, true, false⟩
         ⟨800, 600⟩ ⟨1920, 1080⟩,
       windows.Event.OriginChanged
         ⟨"D", ⟨100, 0⟩, ⟨1920, 1080⟩, 1, true, false⟩
         ⟨0, 0⟩ ⟨100, 0⟩] := by
  have h := (C5_attribute_events_fixed_order
    [("D", ⟨"D", ⟨0, 0⟩, ⟨800, 600⟩, 1, true, false⟩)]
    [("D", ⟨"D", ⟨100, 0⟩, ⟨1920, 1080⟩, 1, true, false⟩)] "D"
    ⟨"D", ⟨0, 0⟩, ⟨800, 600⟩, 1, true, false⟩
    ⟨"D", ⟨100, 0⟩, ⟨1920, 1080⟩, 1, true, false⟩
    (by decide) (by decide) (by decide) (by decide)).1
  rw [h]
  decide
